import Mathlib

/-!
Shallow embedding of the diff pipeline in
src/automation/shared/diff_suite.py.

JSON values (as produced by json.loads) are modelled by the mutual
inductive JValue / JList / JFields.  A Python dict[str, Any] used as a
keyed artifact map is modelled by Doc: the (distinct) key list of the
dict plus the entry stored at each key; the source only reads entries at
present keys, and it always sorts key sets before iterating, so the key
list order never influences results (proved below).  Python sorted(...)
over string key sets is modelled by insertion sort over the ≤ order on
String.  The three differencers, the risk aggregator, the markdown
renderer and the previous-artifact resolver are translated function by
function from the source.
-/

namespace DiffSuite

mutual

/-- JSON-like values, as produced by json.loads in the source. -/
inductive JValue where
  | null : JValue
  | bool : Bool → JValue
  | num : Int → JValue
  | str : String → JValue
  | arr : JList → JValue
  | obj : JFields → JValue
deriving DecidableEq

/-- A JSON array. -/
inductive JList where
  | nil : JList
  | cons : JValue → JList → JList
deriving DecidableEq

/-- The field list of a JSON object (keys are distinct after parsing). -/
inductive JFields where
  | nil : JFields
  | cons : String → JValue → JFields → JFields
deriving DecidableEq

end

/-- Build a JSON array from a Lean list (literal helper). -/
def JList.ofList : List JValue → JList
  | [] => JList.nil
  | v :: rest => JList.cons v (JList.ofList rest)

/-- Build JSON object fields from a Lean association list (literal helper). -/
def JFields.ofList : List (String × JValue) → JFields
  | [] => JFields.nil
  | (k, v) :: rest => JFields.cons k v (JFields.ofList rest)

/-- JSON array literal. -/
def jarr (l : List JValue) : JValue := JValue.arr (JList.ofList l)

/-- JSON object literal. -/
def jobj (l : List (String × JValue)) : JValue := JValue.obj (JFields.ofList l)

/-- Lookup of a key among object fields (dict keys are unique, first wins). -/
def JFields.get : JFields → String → Option JValue
  | JFields.nil, _ => none
  | JFields.cons k v fs, key => if k = key then some v else JFields.get fs key

/-- Python d.get(k) on a JSON object; on a non-object the source would not
be called with one where it matters, modelled as an absent key. -/
def jget : JValue → String → Option JValue
  | JValue.obj fields, k => fields.get k
  | _, _ => none

/-- Python d.get(k, default). -/
def jgetD (v : JValue) (k : String) (d : JValue) : JValue :=
  (jget v k).getD d

/-- Python d.get(k, default) on a dict modelled as an association list
(used for the literal totals dicts the differencers build). -/
def tget : List (String × JValue) → String → Option JValue
  | [], _ => none
  | (k, v) :: rest, key => if k = key then some v else tget rest key

/-- Read a field of a JSON object as an int, 0 when absent
(models d.get(field, 0) applied to an int-valued field). -/
def intField (v : JValue) (field : String) : Int :=
  match jget v field with
  | some (JValue.num n) => n
  | _ => 0

/-- Read an optional JSON value as an int, 0 when absent
(models d.get(k, 0) applied to an int-valued entry). -/
def intOf : Option JValue → Int
  | some (JValue.num n) => n
  | _ => 0

/-- A Python dict[str, Any] artifact map: its distinct keys (in dict
iteration order, which the source never relies on) and the entry stored
at each key. -/
structure Doc where
  keys : List String
  entry : String → JValue
  nodup : keys.Nodup

/-- The empty artifact map (a missing or unparseable file loads as {}). -/
def emptyDoc : Doc := ⟨[], fun _ => JValue.null, List.nodup_nil⟩

/-- Python sorted(...) over a set of string keys given as a list. -/
def sortedKeys (l : List String) : List String :=
  l.insertionSort (· ≤ ·)

/-- Python sorted(current_keys - previous_keys). -/
def addedKeys (ck pk : List String) : List String :=
  sortedKeys (ck.filter (fun k => decide (k ∉ pk)))

/-- Python sorted(current_keys & previous_keys). -/
def sharedKeys (ck pk : List String) : List String :=
  sortedKeys (ck.filter (fun k => decide (k ∈ pk)))

/-- The network artifact document: the endpoints map
(current.get("endpoints", {}) or {}). -/
structure NetworkDoc where
  endpoints : Doc

/-- The assets artifact document: the categories map and the raw totals
substructure (current.get("totals", {})). -/
structure AssetsDoc where
  categories : Doc
  totals : JValue

/-- The tokens artifact document: the screens map
(current.get("screens", {}) or {}). -/
structure TokensDoc where
  screens : Doc

/-- An added/removed item built by diff_network. -/
structure NetworkItem where
  endpoint : String
  hosts : JValue
  status_codes : JValue
deriving DecidableEq

/-- A changed item built by diff_network: the endpoint plus the per-field
delta dict as (field, before, after) triples. -/
structure NetworkChange where
  endpoint : String
  changes : List (String × Option JValue × Option JValue)
deriving DecidableEq

/-- Result dict of diff_network; totals is the literal totals dict. -/
structure NetworkDiff where
  added : List NetworkItem
  removed : List NetworkItem
  changed : List NetworkChange
  totals : List (String × JValue)
deriving DecidableEq

/-- The fields compared by diff_network on shared keys. -/
def netFields : List String := ["hosts", "status_codes"]

/-- The delta dict of diff_network for one shared key: the fields whose
values differ, each with its before/after pair. -/
def netDelta (currentEntry previousEntry : JValue) :
    List (String × Option JValue × Option JValue) :=
  (netFields.filter (fun f => decide (jget currentEntry f ≠ jget previousEntry f))).map
    (fun f => (f, jget previousEntry f, jget currentEntry f))

/-- diff_network(current, previous) from the source. -/
def diff_network (current previous : NetworkDoc) : NetworkDiff :=
  let ce := current.endpoints
  let pe := previous.endpoints
  let added := (addedKeys ce.keys pe.keys).map (fun key =>
    { endpoint := key
      hosts := jgetD (ce.entry key) "hosts" (jarr [])
      status_codes := jgetD (ce.entry key) "status_codes" (jobj []) : NetworkItem })
  let removed := (addedKeys pe.keys ce.keys).map (fun key =>
    { endpoint := key
      hosts := jgetD (pe.entry key) "hosts" (jarr [])
      status_codes := jgetD (pe.entry key) "status_codes" (jobj []) : NetworkItem })
  let changed := ((sharedKeys ce.keys pe.keys).filter
      (fun key => decide (netDelta (ce.entry key) (pe.entry key) ≠ []))).map
    (fun key =>
      { endpoint := key, changes := netDelta (ce.entry key) (pe.entry key) : NetworkChange })
  { added := added
    removed := removed
    changed := changed
    totals :=
      [ ("added", JValue.num added.length)
      , ("removed", JValue.num removed.length)
      , ("changed", JValue.num changed.length)
      , ("current", JValue.num ce.keys.length)
      , ("previous", JValue.num pe.keys.length) ] }

/-- An added/removed item built by diff_assets. -/
structure AssetItem where
  category : String
  count : JValue
  bytes : JValue
deriving DecidableEq

/-- A changed item built by diff_assets: the whole before/after entries. -/
structure AssetChange where
  category : String
  before : JValue
  after : JValue
deriving DecidableEq

/-- Result dict of diff_assets; totals is the literal totals dict, passing
the documents' totals substructures through verbatim. -/
structure AssetsDiff where
  added : List AssetItem
  removed : List AssetItem
  changed : List AssetChange
  totals : List (String × JValue)
deriving DecidableEq

/-- diff_assets(current, previous) from the source. -/
def diff_assets (current previous : AssetsDoc) : AssetsDiff :=
  let cc := current.categories
  let pc := previous.categories
  let added := (addedKeys cc.keys pc.keys).map (fun key =>
    { category := key
      count := jgetD (cc.entry key) "count" (JValue.num 0)
      bytes := jgetD (cc.entry key) "bytes" (JValue.num 0) : AssetItem })
  let removed := (addedKeys pc.keys cc.keys).map (fun key =>
    { category := key
      count := jgetD (pc.entry key) "count" (JValue.num 0)
      bytes := jgetD (pc.entry key) "bytes" (JValue.num 0) : AssetItem })
  let changed := ((sharedKeys cc.keys pc.keys).filter
      (fun key => decide (jget (cc.entry key) "count" ≠ jget (pc.entry key) "count"
        ∨ jget (cc.entry key) "bytes" ≠ jget (pc.entry key) "bytes"))).map
    (fun key =>
      { category := key, before := pc.entry key, after := cc.entry key : AssetChange })
  { added := added
    removed := removed
    changed := changed
    totals := [("current", current.totals), ("previous", previous.totals)] }

/-- A changed item built by diff_tokens. -/
structure TokenChange where
  screen : String
  metrics_changed : Bool
  status_before : Option JValue
  status_after : Option JValue
deriving DecidableEq

/-- Result dict of diff_tokens; totals is the literal totals dict
(note: it has only "current" and "previous" keys). -/
structure TokensDiff where
  added : List String
  removed : List String
  changed : List TokenChange
  totals : List (String × JValue)
deriving DecidableEq

/-- diff_tokens(current, previous) from the source. -/
def diff_tokens (current previous : TokensDoc) : TokensDiff :=
  let cs := current.screens
  let ps := previous.screens
  let added := addedKeys cs.keys ps.keys
  let removed := addedKeys ps.keys cs.keys
  let changed := ((sharedKeys cs.keys ps.keys).filter
      (fun key => decide (jget (cs.entry key) "metrics" ≠ jget (ps.entry key) "metrics"
        ∨ jget (cs.entry key) "status" ≠ jget (ps.entry key) "status"))).map
    (fun key =>
      { screen := key
        metrics_changed := decide (jget (cs.entry key) "metrics" ≠ jget (ps.entry key) "metrics")
        status_before := jget (ps.entry key) "status"
        status_after := jget (cs.entry key) "status" : TokenChange })
  { added := added
    removed := removed
    changed := changed
    totals :=
      [ ("current", JValue.num cs.keys.length)
      , ("previous", JValue.num ps.keys.length) ] }

/-- The risk dict built by risk_rating. -/
structure Risk where
  level : String
  label : String
  score : Int
deriving DecidableEq

/-- The diff payload assembled by process_platform: it always carries all
three sections. -/
structure DiffPayload where
  network : NetworkDiff
  assets : AssetsDiff
  tokens : TokensDiff

/-- The per-section delta of risk_rating's loop body: for "assets" the
absolute file-count difference read from the totals dict, otherwise the
sum of the "added"/"removed"/"changed" counts read from the totals dict
(0 for each absent key). -/
def deltaFor (sectionName : String) (totals : List (String × JValue)) : Int :=
  if sectionName = "assets" then
    let currentTotal := intField ((tget totals "current").getD (jobj [])) "files"
    let previousTotal := intField ((tget totals "previous").getD (jobj [])) "files"
    |currentTotal - previousTotal|
  else
    intOf (tget totals "added") + intOf (tget totals "removed") + intOf (tget totals "changed")

/-- risk_rating(diff_payload) from the source, over a payload carrying the
three sections (as process_platform always builds it). -/
def risk_rating (payload : DiffPayload) : Risk :=
  let counts :=
    [ deltaFor "network" payload.network.totals
    , deltaFor "assets" payload.assets.totals
    , deltaFor "tokens" payload.tokens.totals ]
  let aggregate := counts.sum
  if aggregate = 0 then { level := "low", label := "stable", score := aggregate }
  else if aggregate ≤ 5 then { level := "medium", label := "review", score := aggregate }
  else { level := "high", label := "attention", score := aggregate }

/-- The pure core of process_platform: the three diffs of the payload
(generated_at and file IO aside, the payload always carries all three
sections, each possibly with empty finding lists). -/
def buildPayload (nc np : NetworkDoc) (ac ap : AssetsDoc) (tc tp : TokensDoc) : DiffPayload :=
  { network := diff_network nc np
    assets := diff_assets ac ap
    tokens := diff_tokens tc tp }

/-- format_markdown(platform, diff_payload) from the source, modelled as
the lines list the source joins with newlines.  Each section argument is
the section dict looked up with diff_payload.get(key, {}): none stands for
an absent (or empty, hence falsy) section, some for the nonempty dict a
differencer returns. -/
def format_markdown (platform : String) (network : Option NetworkDiff)
    (assets : Option AssetsDiff) (tokens : Option TokensDiff) (risk : Option Risk) :
    List String :=
  let header := ["# " ++ platform.toUpper ++ " Diff Summary", ""]
  let riskLines :=
    match risk with
    | none => []
    | some r => ["- Risk: **" ++ r.label ++ "** (score " ++ toString r.score ++ ")"]
  let networkLines :=
    match network with
    | none => []
    | some nd =>
      [ "## Network"
      , "- Added: " ++ toString (intOf (tget nd.totals "added"))
      , "- Removed: " ++ toString (intOf (tget nd.totals "removed"))
      , "- Changed: " ++ toString (intOf (tget nd.totals "changed")) ]
      ++ (nd.added.take 5).map (fun item => "  - ➕ " ++ item.endpoint)
      ++ (nd.removed.take 5).map (fun item => "  - ➖ " ++ item.endpoint)
  let assetsLines :=
    match assets with
    | none => []
    | some ad =>
      [ "## Assets"
      , "- Current files: " ++ toString (intField ((tget ad.totals "current").getD (jobj [])) "files")
      , "- Previous files: " ++ toString (intField ((tget ad.totals "previous").getD (jobj [])) "files") ]
      ++ (ad.changed.take 5).map (fun item =>
        "  - ∆ " ++ item.category ++ ": " ++ toString (intField item.before "count")
          ++ " → " ++ toString (intField item.after "count"))
  let tokensLines :=
    match tokens with
    | none => []
    | some td =>
      [ "## Design Tokens"
      , "- Screens tracked: " ++ toString (intOf (tget td.totals "current"))
      , "- Added screens: " ++ toString td.added.length
      , "- Removed screens: " ++ toString td.removed.length ]
      ++ (td.added.take 5).map (fun screen => "  - ➕ " ++ screen)
      ++ (td.removed.take 5).map (fun screen => "  - ➖ " ++ screen)
  header ++ riskLines ++ networkLines ++ assetsLines ++ tokensLines

/-- A filesystem path as resolve_previous manipulates it: directory,
file stem, and final suffix (Path.suffix), so that name = stem ++ suffix. -/
structure FPath where
  dir : String
  stem : String
  suffix : String
deriving DecidableEq

/-- Does the first character list start with the second? -/
def startsWithChars : List Char → List Char → Bool
  | _, [] => true
  | [], _ :: _ => false
  | c :: s, d :: t => c = d && startsWithChars s t

/-- One fuel-indexed pass of Python str.replace: replaces non-overlapping
occurrences of pat left to right, never rescanning a replacement.  Any
fuel of at least the string length is exact. -/
def replaceFuel (pat rep : List Char) : Nat → List Char → List Char
  | _, [] => []
  | 0, s => s
  | fuel + 1, c :: rest =>
    if startsWithChars (c :: rest) pat && decide (pat ≠ []) then
      rep ++ replaceFuel pat rep fuel ((c :: rest).drop pat.length)
    else
      c :: replaceFuel pat rep fuel rest

/-- Python str.replace(pat, rep) (for nonempty pat, as used in the source). -/
def stringReplace (s pat rep : String) : String :=
  String.mk (replaceFuel pat.data rep.data s.data.length s.data)

/-- Python path.with_suffix(path.suffix.replace(pat, rep)). -/
def withSuffixReplaced (p : FPath) (pat rep : String) : FPath :=
  { p with suffix := stringReplace p.suffix pat rep }

/-- The *.prev.json sibling candidate built by resolve_previous. -/
def prevCandidate (p : FPath) : FPath := withSuffixReplaced p ".json" ".prev.json"

/-- The *.baseline.json sibling candidate built by resolve_previous. -/
def baselineCandidate (p : FPath) : FPath := withSuffixReplaced p ".json" ".baseline.json"

/-- Python root / path.name. -/
def rootJoin (root : String) (p : FPath) : FPath :=
  { dir := root, stem := p.stem, suffix := p.suffix }

/-- resolve_previous(path, provided, root) from the source, with filesystem
existence abstracted as a predicate on paths. -/
def resolve_previous (fsExists : FPath → Bool) (path : FPath)
    (provided : Option FPath) (root : Option String) : Option FPath :=
  match provided with
  | some p => some p
  | none =>
    let fromRoot : Option FPath :=
      match root with
      | some r => if fsExists (rootJoin r path) then some (rootJoin r path) else none
      | none => none
    match fromRoot with
    | some c => some c
    | none =>
      if fsExists (prevCandidate path) then some (prevCandidate path)
      else if fsExists (baselineCandidate path) then some (baselineCandidate path)
      else none

/-- The fallback candidates resolve_previous actually tries, in order. -/
def candidateList (path : FPath) (root : Option String) : List FPath :=
  (match root with
   | some r => [rootJoin r path]
   | none => []) ++ [prevCandidate path, baselineCandidate path]

/-- The fallback candidates in the order the claim states them
(root override, then baseline, then prev), written from the claim's words
for comparison with the source's order. -/
def claimCandidateList (path : FPath) (root : Option String) : List FPath :=
  (match root with
   | some r => [rootJoin r path]
   | none => []) ++ [baselineCandidate path, prevCandidate path]

/-- Resolution as the claim describes it: first existing candidate of the
claim's order, written from the claim's words. -/
def resolve_previous_claimed (fsExists : FPath → Bool) (path : FPath)
    (provided : Option FPath) (root : Option String) : Option FPath :=
  match provided with
  | some p => some p
  | none => (claimCandidateList path root).find? fsExists

/-- The empty network document (missing file loads as {}). -/
def emptyNetworkDoc : NetworkDoc := ⟨emptyDoc⟩

/-- The empty assets document (missing file loads as {}). -/
def emptyAssetsDoc : AssetsDoc := ⟨emptyDoc, jobj []⟩

/-- The empty tokens document (missing file loads as {}). -/
def emptyTokensDoc : TokensDoc := ⟨emptyDoc⟩

/-- Tokens document {"screens": {"home": {"metrics": {"w": 1}, "status": "passed"}}}. -/
def tokHomeW1 : TokensDoc :=
  ⟨⟨["home"],
    fun _ => jobj [("metrics", jobj [("w", JValue.num 1)]), ("status", JValue.str "passed")],
    by decide⟩⟩

/-- Tokens document {"screens": {"home": {"metrics": {"w": 2}, "status": "passed"}}}. -/
def tokHomeW2 : TokensDoc :=
  ⟨⟨["home"],
    fun _ => jobj [("metrics", jobj [("w", JValue.num 2)]), ("status", JValue.str "passed")],
    by decide⟩⟩

/-- Assets document with totals {"files": 10, "bytes": 1000}. -/
def assetsFiles10Bytes1000 : AssetsDoc :=
  ⟨emptyDoc, jobj [("files", JValue.num 10), ("bytes", JValue.num 1000)]⟩

/-- Assets document with totals {"files": 10, "bytes": 900}. -/
def assetsFiles10Bytes900 : AssetsDoc :=
  ⟨emptyDoc, jobj [("files", JValue.num 10), ("bytes", JValue.num 900)]⟩

/-! Helper lemmas about the sorted key-set operations. -/

theorem mem_sortedKeys {l : List String} {k : String} : k ∈ sortedKeys l ↔ k ∈ l :=
  (List.perm_insertionSort _ l).mem_iff

theorem sortedKeys_sorted (l : List String) : (sortedKeys l).Sorted (· ≤ ·) :=
  List.sorted_insertionSort _ l

theorem sortedKeys_nodup {l : List String} (h : l.Nodup) : (sortedKeys l).Nodup :=
  (List.perm_insertionSort _ l).nodup_iff.mpr h

theorem sortedKeys_sorted_lt {l : List String} (h : l.Nodup) : (sortedKeys l).Sorted (· < ·) :=
  (sortedKeys_sorted l).lt_of_le (sortedKeys_nodup h)

theorem sortedKeys_eq_of_perm {l₁ l₂ : List String} (h : List.Perm l₁ l₂) :
    sortedKeys l₁ = sortedKeys l₂ :=
  List.eq_of_perm_of_sorted
    ((List.perm_insertionSort _ l₁).trans (h.trans (List.perm_insertionSort _ l₂).symm))
    (sortedKeys_sorted l₁) (sortedKeys_sorted l₂)

theorem mem_addedKeys {ck pk : List String} {k : String} :
    k ∈ addedKeys ck pk ↔ k ∈ ck ∧ k ∉ pk := by
  simp [addedKeys, mem_sortedKeys, List.mem_filter]

theorem mem_sharedKeys {ck pk : List String} {k : String} :
    k ∈ sharedKeys ck pk ↔ k ∈ ck ∧ k ∈ pk := by
  simp [sharedKeys, mem_sortedKeys, List.mem_filter]

theorem addedKeys_nodup {ck : List String} (pk : List String) (h : ck.Nodup) :
    (addedKeys ck pk).Nodup :=
  sortedKeys_nodup (h.filter _)

theorem sharedKeys_nodup {ck : List String} (pk : List String) (h : ck.Nodup) :
    (sharedKeys ck pk).Nodup :=
  sortedKeys_nodup (h.filter _)

theorem addedKeys_sorted_lt {ck : List String} (pk : List String) (h : ck.Nodup) :
    (addedKeys ck pk).Sorted (· < ·) :=
  sortedKeys_sorted_lt (h.filter _)

theorem sharedKeys_sorted_lt {ck : List String} (pk : List String) (h : ck.Nodup) :
    (sharedKeys ck pk).Sorted (· < ·) :=
  sortedKeys_sorted_lt (h.filter _)

theorem addedKeys_congr {ck ck' pk pk' : List String} (h1 : List.Perm ck ck')
    (h2 : ∀ x, x ∈ pk ↔ x ∈ pk') : addedKeys ck pk = addedKeys ck' pk' := by
  unfold addedKeys
  apply sortedKeys_eq_of_perm
  have hf : ck'.filter (fun k => decide (k ∉ pk)) = ck'.filter (fun k => decide (k ∉ pk')) :=
    List.filter_congr (fun x _ => by simp [h2 x])
  calc List.Perm (ck.filter (fun k => decide (k ∉ pk))) (ck'.filter (fun k => decide (k ∉ pk))) :=
        h1.filter _
    _ = ck'.filter (fun k => decide (k ∉ pk')) := hf

theorem sharedKeys_congr {ck ck' pk pk' : List String} (h1 : List.Perm ck ck')
    (h2 : ∀ x, x ∈ pk ↔ x ∈ pk') : sharedKeys ck pk = sharedKeys ck' pk' := by
  unfold sharedKeys
  apply sortedKeys_eq_of_perm
  have hf : ck'.filter (fun k => decide (k ∈ pk)) = ck'.filter (fun k => decide (k ∈ pk')) :=
    List.filter_congr (fun x _ => by simp [h2 x])
  calc List.Perm (ck.filter (fun k => decide (k ∈ pk))) (ck'.filter (fun k => decide (k ∈ pk))) :=
        h1.filter _
    _ = ck'.filter (fun k => decide (k ∈ pk')) := hf

theorem addedKeys_self (l : List String) : addedKeys l l = [] := by
  unfold addedKeys
  rw [List.filter_eq_nil_iff.mpr (fun a ha => by simp [ha])]
  rfl

/-! Key projections of the three differencers. -/

theorem network_added_keys (c p : NetworkDoc) :
    (diff_network c p).added.map NetworkItem.endpoint =
      addedKeys c.endpoints.keys p.endpoints.keys := by
  simp [diff_network, List.map_map, Function.comp_def]

theorem network_removed_keys (c p : NetworkDoc) :
    (diff_network c p).removed.map NetworkItem.endpoint =
      addedKeys p.endpoints.keys c.endpoints.keys := by
  simp [diff_network, List.map_map, Function.comp_def]

theorem network_changed_keys (c p : NetworkDoc) :
    (diff_network c p).changed.map NetworkChange.endpoint =
      (sharedKeys c.endpoints.keys p.endpoints.keys).filter
        (fun key => decide (netDelta (c.endpoints.entry key) (p.endpoints.entry key) ≠ [])) := by
  simp [diff_network, List.map_map, Function.comp_def]

theorem assets_added_keys (c p : AssetsDoc) :
    (diff_assets c p).added.map AssetItem.category =
      addedKeys c.categories.keys p.categories.keys := by
  simp [diff_assets, List.map_map, Function.comp_def]

theorem assets_removed_keys (c p : AssetsDoc) :
    (diff_assets c p).removed.map AssetItem.category =
      addedKeys p.categories.keys c.categories.keys := by
  simp [diff_assets, List.map_map, Function.comp_def]

theorem assets_changed_keys (c p : AssetsDoc) :
    (diff_assets c p).changed.map AssetChange.category =
      (sharedKeys c.categories.keys p.categories.keys).filter
        (fun key => decide (jget (c.categories.entry key) "count" ≠ jget (p.categories.entry key) "count"
          ∨ jget (c.categories.entry key) "bytes" ≠ jget (p.categories.entry key) "bytes")) := by
  simp [diff_assets, List.map_map, Function.comp_def]

theorem tokens_added_keys (c p : TokensDoc) :
    (diff_tokens c p).added = addedKeys c.screens.keys p.screens.keys := rfl

theorem tokens_removed_keys (c p : TokensDoc) :
    (diff_tokens c p).removed = addedKeys p.screens.keys c.screens.keys := rfl

theorem tokens_changed_keys (c p : TokensDoc) :
    (diff_tokens c p).changed.map TokenChange.screen =
      (sharedKeys c.screens.keys p.screens.keys).filter
        (fun key => decide (jget (c.screens.entry key) "metrics" ≠ jget (p.screens.entry key) "metrics"
          ∨ jget (c.screens.entry key) "status" ≠ jget (p.screens.entry key) "status")) := by
  simp [diff_tokens, List.map_map, Function.comp_def]

/-! Helper lemmas about risk_rating. -/

/-- The aggregate risk_rating sums over a payload's three sections. -/
def aggregateOf (payload : DiffPayload) : Int :=
  deltaFor "network" payload.network.totals + deltaFor "assets" payload.assets.totals
    + deltaFor "tokens" payload.tokens.totals

theorem risk_rating_eq (payload : DiffPayload) :
    risk_rating payload =
      if aggregateOf payload = 0 then
        { level := "low", label := "stable", score := aggregateOf payload }
      else if aggregateOf payload ≤ 5 then
        { level := "medium", label := "review", score := aggregateOf payload }
      else
        { level := "high", label := "attention", score := aggregateOf payload } := by
  unfold risk_rating aggregateOf
  simp [add_assoc]

theorem risk_score_eq (payload : DiffPayload) :
    (risk_rating payload).score = aggregateOf payload := by
  rw [risk_rating_eq]
  split
  · rfl
  split <;> rfl

theorem deltaFor_network_diff (c p : NetworkDoc) :
    deltaFor "network" (diff_network c p).totals =
      ((diff_network c p).added.length : Int) + (diff_network c p).removed.length
        + (diff_network c p).changed.length := rfl

theorem deltaFor_tokens_diff (c p : TokensDoc) :
    deltaFor "tokens" (diff_tokens c p).totals = 0 := rfl

theorem deltaFor_assets_diff (c p : AssetsDoc) :
    deltaFor "assets" (diff_assets c p).totals =
      |intField c.totals "files" - intField p.totals "files"| := rfl

theorem aggregateOf_nonneg (nc np : NetworkDoc) (ac ap : AssetsDoc) (tc tp : TokensDoc) :
    0 ≤ aggregateOf (buildPayload nc np ac ap tc tp) := by
  unfold aggregateOf buildPayload
  rw [deltaFor_network_diff, deltaFor_tokens_diff, deltaFor_assets_diff]
  have h1 : (0 : Int) ≤ ((diff_network nc np).added.length : Int) + (diff_network nc np).removed.length
      + (diff_network nc np).changed.length := by positivity
  have h2 : (0 : Int) ≤ |intField ac.totals "files" - intField ap.totals "files"| := abs_nonneg _
  omega

/-- Diffing an entry against itself produces an empty delta dict. -/
theorem netDelta_self (e : JValue) : netDelta e e = [] := by
  simp [netDelta]

/-- C1: the claim says the tokens contribution to the risk score equals
len(added) + len(removed) + len(changed) of the tokens DiffResult, so that a
run whose only structural change is one added screen gets a strictly
positive score.  On the code this fails: risk_rating reads the
"added"/"removed"/"changed" keys of the section's totals dict, but
diff_tokens puts only "current" and "previous" into its totals, so the
tokens contribution is always 0.  Evaluated at the failing input (one
added screen, everything else empty): one screen is added yet the score is
0 and the level is "low". -/
theorem C1_tokens_contribution_dropped :
    (diff_tokens tokHomeW1 emptyTokensDoc).added = ["home"]
    ∧ (diff_tokens tokHomeW1 emptyTokensDoc).removed = []
    ∧ (diff_tokens tokHomeW1 emptyTokensDoc).changed = []
    ∧ deltaFor "tokens" (diff_tokens tokHomeW1 emptyTokensDoc).totals = 0
    ∧ (risk_rating (buildPayload emptyNetworkDoc emptyNetworkDoc emptyAssetsDoc emptyAssetsDoc
        tokHomeW1 emptyTokensDoc)).score = 0
    ∧ (risk_rating (buildPayload emptyNetworkDoc emptyNetworkDoc emptyAssetsDoc emptyAssetsDoc
        tokHomeW1 emptyTokensDoc)).level = "low" := by
  decide

/-- C5: for every pair of asset documents, the assets contribution to the
risk score (the "assets" branch of risk_rating's loop, applied to the
totals dict diff_assets builds) equals the absolute difference of the
current and previous totals.files, independent of byte counts and
per-category diffs; in particular, totals {files:10, bytes:1000} against
{files:10, bytes:900} contributes 0. -/
theorem C5_assets_contribution (c p : AssetsDoc) :
    deltaFor "assets" (diff_assets c p).totals =
      |intField c.totals "files" - intField p.totals "files"|
    ∧ deltaFor "assets" (diff_assets assetsFiles10Bytes1000 assetsFiles10Bytes900).totals = 0 :=
  ⟨deltaFor_assets_diff c p, by decide⟩

/-- C4: diffing a document against itself yields empty added, removed and
changed lists for all three differencers, and risk_rating over the
resulting payload yields score 0 and level "low". -/
theorem C4_self_diff_stable (n : NetworkDoc) (a : AssetsDoc) (t : TokensDoc) :
    (diff_network n n).added = [] ∧ (diff_network n n).removed = []
    ∧ (diff_network n n).changed = []
    ∧ (diff_assets a a).added = [] ∧ (diff_assets a a).removed = []
    ∧ (diff_assets a a).changed = []
    ∧ (diff_tokens t t).added = [] ∧ (diff_tokens t t).removed = []
    ∧ (diff_tokens t t).changed = []
    ∧ (risk_rating (buildPayload n n a a t t)).score = 0
    ∧ (risk_rating (buildPayload n n a a t t)).level = "low" := by
  have hna : (diff_network n n).added = [] := by simp [diff_network, addedKeys_self]
  have hnr : (diff_network n n).removed = [] := by simp [diff_network, addedKeys_self]
  have hnc : (diff_network n n).changed = [] := by simp [diff_network, netDelta_self]
  have haa : (diff_assets a a).added = [] := by simp [diff_assets, addedKeys_self]
  have har : (diff_assets a a).removed = [] := by simp [diff_assets, addedKeys_self]
  have hac : (diff_assets a a).changed = [] := by simp [diff_assets]
  have hta : (diff_tokens t t).added = [] := by simp [diff_tokens, addedKeys_self]
  have htr : (diff_tokens t t).removed = [] := by simp [diff_tokens, addedKeys_self]
  have htc : (diff_tokens t t).changed = [] := by simp [diff_tokens]
  have hagg : aggregateOf (buildPayload n n a a t t) = 0 := by
    show deltaFor "network" (diff_network n n).totals + deltaFor "assets" (diff_assets a a).totals
      + deltaFor "tokens" (diff_tokens t t).totals = 0
    rw [deltaFor_network_diff, deltaFor_tokens_diff, deltaFor_assets_diff, hna, hnr, hnc]
    simp
  refine ⟨hna, hnr, hnc, haa, har, hac, hta, htr, htc, ?_, ?_⟩
  · rw [risk_score_eq, hagg]
  · rw [risk_rating_eq, if_pos hagg]

/-- C7: for every pair of token documents and shared screen key, diff_tokens
records a changed entry for that key iff the metrics differ (by deep
equality) or the status differs; any such entry carries the independent
metrics_changed flag together with status_before/status_after; and on the
spec's scenario ({"home": {metrics:{"w":1}, status:"passed"}} against
{"home": {metrics:{"w":2}, status:"passed"}}) the result is exactly one
changed entry with metrics_changed = true and both statuses "passed". -/
theorem C7_tokens_changed_entry (c p : TokensDoc) (k : String)
    (hc : k ∈ c.screens.keys) (hp : k ∈ p.screens.keys) :
    ((∃ e ∈ (diff_tokens c p).changed, e.screen = k) ↔
      (jget (c.screens.entry k) "metrics" ≠ jget (p.screens.entry k) "metrics"
        ∨ jget (c.screens.entry k) "status" ≠ jget (p.screens.entry k) "status"))
    ∧ (∀ e ∈ (diff_tokens c p).changed, e.screen = k →
        e.metrics_changed =
          decide (jget (c.screens.entry k) "metrics" ≠ jget (p.screens.entry k) "metrics")
        ∧ e.status_before = jget (p.screens.entry k) "status"
        ∧ e.status_after = jget (c.screens.entry k) "status")
    ∧ (diff_tokens tokHomeW1 tokHomeW2).changed =
        [{ screen := "home", metrics_changed := true,
           status_before := some (JValue.str "passed"),
           status_after := some (JValue.str "passed") }] := by
  have hchanged : (diff_tokens c p).changed =
      ((sharedKeys c.screens.keys p.screens.keys).filter
        (fun key => decide (jget (c.screens.entry key) "metrics" ≠ jget (p.screens.entry key) "metrics"
          ∨ jget (c.screens.entry key) "status" ≠ jget (p.screens.entry key) "status"))).map
      (fun key =>
        { screen := key
          metrics_changed := decide (jget (c.screens.entry key) "metrics" ≠ jget (p.screens.entry key) "metrics")
          status_before := jget (p.screens.entry key) "status"
          status_after := jget (c.screens.entry key) "status" : TokenChange }) := rfl
  refine ⟨?_, ?_, by decide⟩
  · rw [hchanged]
    constructor
    · rintro ⟨e, he, hek⟩
      obtain ⟨key, hkey, rfl⟩ := List.mem_map.mp he
      have hkk : key = k := hek
      subst hkk
      have := (List.mem_filter.mp hkey).2
      simpa using this
    · intro hdiff
      refine ⟨_, List.mem_map.mpr ⟨k, ?_, rfl⟩, rfl⟩
      refine List.mem_filter.mpr ⟨mem_sharedKeys.mpr ⟨hc, hp⟩, by simpa using hdiff⟩
  · intro e he hek
    rw [hchanged] at he
    obtain ⟨key, hkey, rfl⟩ := List.mem_map.mp he
    have hkk : key = k := hek
    subst hkk
    exact ⟨rfl, rfl, rfl⟩

/-- C2: for every payload built from a pair of documents per artifact type,
risk_rating's score is the sum of the three per-section contributions, and
the level/label pair is "low"/"stable" iff the score is 0, "medium"/"review"
iff 0 < score ≤ 5, and "high"/"attention" iff score > 5. -/
theorem C2_risk_thresholds (nc np : NetworkDoc) (ac ap : AssetsDoc) (tc tp : TokensDoc) :
    (risk_rating (buildPayload nc np ac ap tc tp)).score =
      deltaFor "network" (diff_network nc np).totals
        + deltaFor "assets" (diff_assets ac ap).totals
        + deltaFor "tokens" (diff_tokens tc tp).totals
    ∧ (((risk_rating (buildPayload nc np ac ap tc tp)).level = "low"
        ∧ (risk_rating (buildPayload nc np ac ap tc tp)).label = "stable") ↔
        (risk_rating (buildPayload nc np ac ap tc tp)).score = 0)
    ∧ (((risk_rating (buildPayload nc np ac ap tc tp)).level = "medium"
        ∧ (risk_rating (buildPayload nc np ac ap tc tp)).label = "review") ↔
        (0 < (risk_rating (buildPayload nc np ac ap tc tp)).score
          ∧ (risk_rating (buildPayload nc np ac ap tc tp)).score ≤ 5))
    ∧ (((risk_rating (buildPayload nc np ac ap tc tp)).level = "high"
        ∧ (risk_rating (buildPayload nc np ac ap tc tp)).label = "attention") ↔
        5 < (risk_rating (buildPayload nc np ac ap tc tp)).score) := by
  have hnn := aggregateOf_nonneg nc np ac ap tc tp
  have heq := risk_rating_eq (buildPayload nc np ac ap tc tp)
  have hs := risk_score_eq (buildPayload nc np ac ap tc tp)
  refine ⟨hs, ?_, ?_, ?_⟩ <;>
    · by_cases h0 : aggregateOf (buildPayload nc np ac ap tc tp) = 0
      · rw [if_pos h0] at heq
        rw [heq]
        simp_all
      · rw [if_neg h0] at heq
        by_cases h5 : aggregateOf (buildPayload nc np ac ap tc tp) ≤ 5
        · rw [if_pos h5] at heq
          rw [heq]
          simp_all <;> omega
        · rw [if_neg h5] at heq
          rw [heq]
          simp_all <;> omega

/-- C3: for every pair of input documents and each differencer, the keys of
added equal currentKeys minus previousKeys, the keys of removed equal
previousKeys minus currentKeys, the keys of changed lie in the intersection,
and the three key sets are pairwise disjoint. -/
theorem C3_diff_key_partition (nc np : NetworkDoc) (ac ap : AssetsDoc) (tc tp : TokensDoc)
    (k : String) :
    ((k ∈ (diff_network nc np).added.map NetworkItem.endpoint ↔
        k ∈ nc.endpoints.keys ∧ k ∉ np.endpoints.keys)
      ∧ (k ∈ (diff_network nc np).removed.map NetworkItem.endpoint ↔
        k ∈ np.endpoints.keys ∧ k ∉ nc.endpoints.keys)
      ∧ (k ∈ (diff_network nc np).changed.map NetworkChange.endpoint →
        k ∈ nc.endpoints.keys ∧ k ∈ np.endpoints.keys)
      ∧ ¬(k ∈ (diff_network nc np).added.map NetworkItem.endpoint
          ∧ k ∈ (diff_network nc np).removed.map NetworkItem.endpoint)
      ∧ ¬(k ∈ (diff_network nc np).added.map NetworkItem.endpoint
          ∧ k ∈ (diff_network nc np).changed.map NetworkChange.endpoint)
      ∧ ¬(k ∈ (diff_network nc np).removed.map NetworkItem.endpoint
          ∧ k ∈ (diff_network nc np).changed.map NetworkChange.endpoint))
    ∧ ((k ∈ (diff_assets ac ap).added.map AssetItem.category ↔
        k ∈ ac.categories.keys ∧ k ∉ ap.categories.keys)
      ∧ (k ∈ (diff_assets ac ap).removed.map AssetItem.category ↔
        k ∈ ap.categories.keys ∧ k ∉ ac.categories.keys)
      ∧ (k ∈ (diff_assets ac ap).changed.map AssetChange.category →
        k ∈ ac.categories.keys ∧ k ∈ ap.categories.keys)
      ∧ ¬(k ∈ (diff_assets ac ap).added.map AssetItem.category
          ∧ k ∈ (diff_assets ac ap).removed.map AssetItem.category)
      ∧ ¬(k ∈ (diff_assets ac ap).added.map AssetItem.category
          ∧ k ∈ (diff_assets ac ap).changed.map AssetChange.category)
      ∧ ¬(k ∈ (diff_assets ac ap).removed.map AssetItem.category
          ∧ k ∈ (diff_assets ac ap).changed.map AssetChange.category))
    ∧ ((k ∈ (diff_tokens tc tp).added ↔ k ∈ tc.screens.keys ∧ k ∉ tp.screens.keys)
      ∧ (k ∈ (diff_tokens tc tp).removed ↔ k ∈ tp.screens.keys ∧ k ∉ tc.screens.keys)
      ∧ (k ∈ (diff_tokens tc tp).changed.map TokenChange.screen →
        k ∈ tc.screens.keys ∧ k ∈ tp.screens.keys)
      ∧ ¬(k ∈ (diff_tokens tc tp).added ∧ k ∈ (diff_tokens tc tp).removed)
      ∧ ¬(k ∈ (diff_tokens tc tp).added ∧ k ∈ (diff_tokens tc tp).changed.map TokenChange.screen)
      ∧ ¬(k ∈ (diff_tokens tc tp).removed
          ∧ k ∈ (diff_tokens tc tp).changed.map TokenChange.screen)) := by
  have hna : k ∈ (diff_network nc np).added.map NetworkItem.endpoint ↔
      k ∈ nc.endpoints.keys ∧ k ∉ np.endpoints.keys := by
    rw [network_added_keys]; exact mem_addedKeys
  have hnr : k ∈ (diff_network nc np).removed.map NetworkItem.endpoint ↔
      k ∈ np.endpoints.keys ∧ k ∉ nc.endpoints.keys := by
    rw [network_removed_keys]; exact mem_addedKeys
  have hnc : k ∈ (diff_network nc np).changed.map NetworkChange.endpoint →
      k ∈ nc.endpoints.keys ∧ k ∈ np.endpoints.keys := by
    rw [network_changed_keys]
    intro h
    exact mem_sharedKeys.mp (List.mem_filter.mp h).1
  have haa : k ∈ (diff_assets ac ap).added.map AssetItem.category ↔
      k ∈ ac.categories.keys ∧ k ∉ ap.categories.keys := by
    rw [assets_added_keys]; exact mem_addedKeys
  have har : k ∈ (diff_assets ac ap).removed.map AssetItem.category ↔
      k ∈ ap.categories.keys ∧ k ∉ ac.categories.keys := by
    rw [assets_removed_keys]; exact mem_addedKeys
  have hac : k ∈ (diff_assets ac ap).changed.map AssetChange.category →
      k ∈ ac.categories.keys ∧ k ∈ ap.categories.keys := by
    rw [assets_changed_keys]
    intro h
    exact mem_sharedKeys.mp (List.mem_filter.mp h).1
  have hta : k ∈ (diff_tokens tc tp).added ↔ k ∈ tc.screens.keys ∧ k ∉ tp.screens.keys := by
    rw [tokens_added_keys]; exact mem_addedKeys
  have htr : k ∈ (diff_tokens tc tp).removed ↔ k ∈ tp.screens.keys ∧ k ∉ tc.screens.keys := by
    rw [tokens_removed_keys]; exact mem_addedKeys
  have htc : k ∈ (diff_tokens tc tp).changed.map TokenChange.screen →
      k ∈ tc.screens.keys ∧ k ∈ tp.screens.keys := by
    rw [tokens_changed_keys]
    intro h
    exact mem_sharedKeys.mp (List.mem_filter.mp h).1
  refine ⟨⟨hna, hnr, hnc, ?_, ?_, ?_⟩, ⟨haa, har, hac, ?_, ?_, ?_⟩, ⟨hta, htr, htc, ?_, ?_, ?_⟩⟩
  · rintro ⟨h1, h2⟩; exact (hna.mp h1).2 (hnr.mp h2).1
  · rintro ⟨h1, h2⟩; exact (hna.mp h1).2 (hnc h2).2
  · rintro ⟨h1, h2⟩; exact (hnr.mp h1).2 (hnc h2).1
  · rintro ⟨h1, h2⟩; exact (haa.mp h1).2 (har.mp h2).1
  · rintro ⟨h1, h2⟩; exact (haa.mp h1).2 (hac h2).2
  · rintro ⟨h1, h2⟩; exact (har.mp h1).2 (hac h2).1
  · rintro ⟨h1, h2⟩; exact (hta.mp h1).2 (htr.mp h2).1
  · rintro ⟨h1, h2⟩; exact (hta.mp h1).2 (htc h2).2
  · rintro ⟨h1, h2⟩; exact (htr.mp h1).2 (htc h2).1

/-- C8 counterexample: the claim says an artifact-type section with no
findings is omitted from the narrative markdown.  On the code, diffing
empty documents yields a network section whose added/removed/changed are
all empty, yet the "## Network" heading is still rendered, because
format_markdown only skips a section whose payload entry is missing or an
empty dict, and the section dicts the differencers build are never empty. -/
theorem C8_counterexample_empty_section_rendered :
    (diff_network emptyNetworkDoc emptyNetworkDoc).added = []
    ∧ (diff_network emptyNetworkDoc emptyNetworkDoc).removed = []
    ∧ (diff_network emptyNetworkDoc emptyNetworkDoc).changed = []
    ∧ "## Network" ∈ format_markdown "ios"
        (some (diff_network emptyNetworkDoc emptyNetworkDoc))
        (some (diff_assets emptyAssetsDoc emptyAssetsDoc))
        (some (diff_tokens emptyTokensDoc emptyTokensDoc))
        (some (risk_rating (buildPayload emptyNetworkDoc emptyNetworkDoc emptyAssetsDoc
          emptyAssetsDoc emptyTokensDoc emptyTokensDoc))) := by
  decide

/-- C8 (amended): format_markdown omits a section from the narrative iff its
payload entry is missing (or an empty, falsy dict); the payload built by
process_platform always carries all three sections, so every section —
findings or none — is rendered in the narrative and present in the
structured document. -/
theorem C8_sections_always_rendered (platform : String) (nc np : NetworkDoc)
    (ac ap : AssetsDoc) (tc tp : TokensDoc) (r : Risk) :
    (buildPayload nc np ac ap tc tp).network = diff_network nc np
    ∧ (buildPayload nc np ac ap tc tp).assets = diff_assets ac ap
    ∧ (buildPayload nc np ac ap tc tp).tokens = diff_tokens tc tp
    ∧ "## Network" ∈ format_markdown platform (some (diff_network nc np))
        (some (diff_assets ac ap)) (some (diff_tokens tc tp)) (some r)
    ∧ "## Assets" ∈ format_markdown platform (some (diff_network nc np))
        (some (diff_assets ac ap)) (some (diff_tokens tc tp)) (some r)
    ∧ "## Design Tokens" ∈ format_markdown platform (some (diff_network nc np))
        (some (diff_assets ac ap)) (some (diff_tokens tc tp)) (some r)
    ∧ format_markdown platform none none none none =
        ["# " ++ platform.toUpper ++ " Diff Summary", ""] := by
  refine ⟨rfl, rfl, rfl, ?_, ?_, ?_, rfl⟩ <;> simp [format_markdown, List.mem_append]

/-- The concrete path used in the C6 counterexample. -/
def pathC6 : FPath := ⟨"reports/ios", "network-summary", ".json"⟩

/-- Existence predicate for the C6 counterexample: exactly the two sibling
candidates exist (the root candidate does not). -/
def fexC6 : FPath → Bool := fun q =>
  decide (q = prevCandidate pathC6 ∨ q = baselineCandidate pathC6)

/-- C6 counterexample: with both sibling candidates existing and the
root-override candidate absent, the code returns the ".prev.json" sibling,
while the claim's order (baseline before prev) would return the
".baseline.json" sibling. -/
theorem C6_counterexample_prev_probed_first :
    resolve_previous fexC6 pathC6 none (some "baseline-root")
      = some ⟨"reports/ios", "network-summary", ".prev.json"⟩
    ∧ resolve_previous_claimed fexC6 pathC6 none (some "baseline-root")
      = some ⟨"reports/ios", "network-summary", ".baseline.json"⟩
    ∧ (⟨"reports/ios", "network-summary", ".prev.json"⟩ : FPath)
        ≠ ⟨"reports/ios", "network-summary", ".baseline.json"⟩ := by
  decide

/-- C6 (amended): an explicitly provided previous path is returned as is;
otherwise resolve_previous returns the first existing candidate of, in
order: the same file name under the previous-root override, then the
".prev.json" (previous-run) sibling, then the ".baseline.json" (baseline)
sibling; and None (treated as an empty artifact) when none exists. -/
theorem C6_resolution_order (fsExists : FPath → Bool) (path : FPath)
    (provided : Option FPath) (root : Option String) :
    resolve_previous fsExists path provided root =
      match provided with
      | some p => some p
      | none => (candidateList path root).find? fsExists := by
  cases provided with
  | some p => rfl
  | none =>
    cases root with
    | none =>
      cases hprev : fsExists (prevCandidate path) <;>
        cases hbase : fsExists (baselineCandidate path) <;>
          simp [resolve_previous, candidateList, List.find?, hprev, hbase]
    | some r =>
      cases hroot : fsExists (rootJoin r path) <;>
        cases hprev : fsExists (prevCandidate path) <;>
          cases hbase : fsExists (baselineCandidate path) <;>
            simp [resolve_previous, candidateList, List.find?, hroot, hprev, hbase]

theorem length_filter_mono {α : Type} (l : List α) (p q : α → Bool)
    (h : ∀ x ∈ l, p x = true → q x = true) :
    (l.filter p).length ≤ (l.filter q).length := by
  induction l with
  | nil => simp
  | cons a t ih =>
    have ht : ∀ x ∈ t, p x = true → q x = true :=
      fun x hx => h x (List.mem_cons_of_mem a hx)
    have ha := h a (List.mem_cons_self a t)
    cases hp : p a with
    | true =>
      have hq : q a = true := ha hp
      simp only [List.filter_cons, hp, hq, if_true, List.length_cons]
      exact Nat.succ_le_succ (ih ht)
    | false =>
      cases hq : q a with
      | true =>
        simp only [List.filter_cons, hp, hq]
        have := ih ht
        simp only [Bool.false_eq_true, if_false, if_true, List.length_cons]
        omega
      | false =>
        simp only [List.filter_cons, hp, hq, Bool.false_eq_true, if_false]
        exact ih ht

/-- The current network document with the entry at one key replaced
(keys unchanged: the key is already present). -/
def setEndpoint (d : NetworkDoc) (k : String) (v : JValue) : NetworkDoc :=
  ⟨⟨d.endpoints.keys, fun x => if x = k then v else d.endpoints.entry x, d.endpoints.nodup⟩⟩

/-- C9: the risk score is monotonic in changed endpoints: take any pair of
network documents and a shared endpoint whose entry is currently unchanged;
replacing its current entry so that the endpoint becomes changed (all other
inputs equal) never decreases the score returned by risk_rating. -/
theorem C9_score_monotone_in_changed (c p : NetworkDoc) (ad : AssetsDiff) (td : TokensDiff)
    (k : String) (v : JValue)
    (hkc : k ∈ c.endpoints.keys) (hkp : k ∈ p.endpoints.keys)
    (hbefore : netDelta (c.endpoints.entry k) (p.endpoints.entry k) = [])
    (hafter : netDelta v (p.endpoints.entry k) ≠ []) :
    (risk_rating ⟨diff_network c p, ad, td⟩).score ≤
      (risk_rating ⟨diff_network (setEndpoint c k v) p, ad, td⟩).score := by
  have hadded : (diff_network (setEndpoint c k v) p).added = (diff_network c p).added := by
    apply List.map_congr_left
    intro x hx
    have hxp : x ∉ p.endpoints.keys := (mem_addedKeys.mp hx).2
    have hxk : ¬(x = k) := fun he => hxp (he ▸ hkp)
    simp [setEndpoint, hxk]
  have hremoved : (diff_network (setEndpoint c k v) p).removed = (diff_network c p).removed := rfl
  have hchanged : (diff_network c p).changed.length ≤
      (diff_network (setEndpoint c k v) p).changed.length := by
    show (((sharedKeys c.endpoints.keys p.endpoints.keys).filter
        (fun key => decide (netDelta (c.endpoints.entry key) (p.endpoints.entry key) ≠ []))).map _).length ≤
      (((sharedKeys c.endpoints.keys p.endpoints.keys).filter
        (fun key => decide (netDelta ((setEndpoint c k v).endpoints.entry key) (p.endpoints.entry key) ≠ []))).map _).length
    rw [List.length_map, List.length_map]
    apply length_filter_mono
    intro x _ hpx
    by_cases hxk : x = k
    · subst hxk
      rw [hbefore] at hpx
      simp at hpx
    · simpa [setEndpoint, hxk] using hpx
  rw [risk_score_eq, risk_score_eq]
  show deltaFor "network" (diff_network c p).totals + deltaFor "assets" ad.totals
      + deltaFor "tokens" td.totals ≤
    deltaFor "network" (diff_network (setEndpoint c k v) p).totals + deltaFor "assets" ad.totals
      + deltaFor "tokens" td.totals
  rw [deltaFor_network_diff, deltaFor_network_diff, hadded, hremoved]
  omega

/-- Network document with one endpoint "e" whose hosts are ["a"]. -/
def netDocE : NetworkDoc :=
  ⟨⟨["e"], fun _ => jobj [("hosts", jarr [JValue.str "a"])], by decide⟩⟩

/-- A replacement entry for "e" with different hosts. -/
def entryHostsB : JValue := jobj [("hosts", jarr [JValue.str "b"])]

/-- Assets section of the C9 witness payload. -/
def adEmpty : AssetsDiff := diff_assets emptyAssetsDoc emptyAssetsDoc

/-- Tokens section of the C9 witness payload. -/
def tdEmpty : TokensDiff := diff_tokens emptyTokensDoc emptyTokensDoc

theorem C9_score_monotone_in_changed_witness :
    (risk_rating ⟨diff_network netDocE netDocE, adEmpty, tdEmpty⟩).score ≤
      (risk_rating ⟨diff_network (setEndpoint netDocE "e" entryHostsB) netDocE,
        adEmpty, tdEmpty⟩).score :=
  C9_score_monotone_in_changed netDocE netDocE adEmpty tdEmpty "e" entryHostsB
    (by decide) (by decide) (by decide) (by decide)

theorem networkDiffFieldsEq {x y : NetworkDiff} (h1 : x.added = y.added)
    (h2 : x.removed = y.removed) (h3 : x.changed = y.changed)
    (h4 : x.totals = y.totals) : x = y := by
  cases x; cases y; simp_all

theorem assetsDiffFieldsEq {x y : AssetsDiff} (h1 : x.added = y.added)
    (h2 : x.removed = y.removed) (h3 : x.changed = y.changed)
    (h4 : x.totals = y.totals) : x = y := by
  cases x; cases y; simp_all

theorem tokensDiffFieldsEq {x y : TokensDiff} (h1 : x.added = y.added)
    (h2 : x.removed = y.removed) (h3 : x.changed = y.changed)
    (h4 : x.totals = y.totals) : x = y := by
  cases x; cases y; simp_all

theorem diff_network_congr {c p c' p' : NetworkDoc}
    (hck : List.Perm c.endpoints.keys c'.endpoints.keys)
    (hpk : List.Perm p.endpoints.keys p'.endpoints.keys)
    (hce : ∀ x ∈ c.endpoints.keys, c.endpoints.entry x = c'.endpoints.entry x)
    (hpe : ∀ x ∈ p.endpoints.keys, p.endpoints.entry x = p'.endpoints.entry x) :
    diff_network c p = diff_network c' p' := by
  have hcm : ∀ x, x ∈ c.endpoints.keys ↔ x ∈ c'.endpoints.keys := fun x => hck.mem_iff
  have hpm : ∀ x, x ∈ p.endpoints.keys ↔ x ∈ p'.endpoints.keys := fun x => hpk.mem_iff
  have hak := addedKeys_congr hck hpm
  have hrk := addedKeys_congr hpk hcm
  have hsk := sharedKeys_congr hck hpm
  have hadded : (diff_network c p).added = (diff_network c' p').added := by
    show (addedKeys c.endpoints.keys p.endpoints.keys).map _ =
      (addedKeys c'.endpoints.keys p'.endpoints.keys).map _
    rw [← hak]
    apply List.map_congr_left
    intro x hx
    rw [hce x (mem_addedKeys.mp hx).1]
  have hremoved : (diff_network c p).removed = (diff_network c' p').removed := by
    show (addedKeys p.endpoints.keys c.endpoints.keys).map _ =
      (addedKeys p'.endpoints.keys c'.endpoints.keys).map _
    rw [← hrk]
    apply List.map_congr_left
    intro x hx
    rw [hpe x (mem_addedKeys.mp hx).1]
  have hchanged : (diff_network c p).changed = (diff_network c' p').changed := by
    show ((sharedKeys c.endpoints.keys p.endpoints.keys).filter
        (fun key => decide (netDelta (c.endpoints.entry key) (p.endpoints.entry key) ≠ []))).map _ =
      ((sharedKeys c'.endpoints.keys p'.endpoints.keys).filter
        (fun key => decide (netDelta (c'.endpoints.entry key) (p'.endpoints.entry key) ≠ []))).map _
    rw [← hsk]
    have hfil : (sharedKeys c.endpoints.keys p.endpoints.keys).filter
        (fun key => decide (netDelta (c.endpoints.entry key) (p.endpoints.entry key) ≠ [])) =
      (sharedKeys c.endpoints.keys p.endpoints.keys).filter
        (fun key => decide (netDelta (c'.endpoints.entry key) (p'.endpoints.entry key) ≠ [])) := by
      apply List.filter_congr
      intro x hx
      obtain ⟨hxc, hxp⟩ := mem_sharedKeys.mp hx
      rw [hce x hxc, hpe x hxp]
    rw [hfil]
    apply List.map_congr_left
    intro x hx
    obtain ⟨hxc, hxp⟩ := mem_sharedKeys.mp (List.mem_filter.mp hx).1
    rw [hce x hxc, hpe x hxp]
  refine networkDiffFieldsEq hadded hremoved hchanged ?_
  show [ ("added", JValue.num (diff_network c p).added.length)
       , ("removed", JValue.num (diff_network c p).removed.length)
       , ("changed", JValue.num (diff_network c p).changed.length)
       , ("current", JValue.num c.endpoints.keys.length)
       , ("previous", JValue.num p.endpoints.keys.length) ] =
    [ ("added", JValue.num (diff_network c' p').added.length)
    , ("removed", JValue.num (diff_network c' p').removed.length)
    , ("changed", JValue.num (diff_network c' p').changed.length)
    , ("current", JValue.num c'.endpoints.keys.length)
    , ("previous", JValue.num p'.endpoints.keys.length) ]
  rw [hadded, hremoved, hchanged, hck.length_eq, hpk.length_eq]

theorem diff_assets_congr {c p c' p' : AssetsDoc}
    (hck : List.Perm c.categories.keys c'.categories.keys)
    (hpk : List.Perm p.categories.keys p'.categories.keys)
    (hce : ∀ x ∈ c.categories.keys, c.categories.entry x = c'.categories.entry x)
    (hpe : ∀ x ∈ p.categories.keys, p.categories.entry x = p'.categories.entry x)
    (hct : c.totals = c'.totals) (hpt : p.totals = p'.totals) :
    diff_assets c p = diff_assets c' p' := by
  have hcm : ∀ x, x ∈ c.categories.keys ↔ x ∈ c'.categories.keys := fun x => hck.mem_iff
  have hpm : ∀ x, x ∈ p.categories.keys ↔ x ∈ p'.categories.keys := fun x => hpk.mem_iff
  have hak := addedKeys_congr hck hpm
  have hrk := addedKeys_congr hpk hcm
  have hsk := sharedKeys_congr hck hpm
  have hadded : (diff_assets c p).added = (diff_assets c' p').added := by
    show (addedKeys c.categories.keys p.categories.keys).map _ =
      (addedKeys c'.categories.keys p'.categories.keys).map _
    rw [← hak]
    apply List.map_congr_left
    intro x hx
    rw [hce x (mem_addedKeys.mp hx).1]
  have hremoved : (diff_assets c p).removed = (diff_assets c' p').removed := by
    show (addedKeys p.categories.keys c.categories.keys).map _ =
      (addedKeys p'.categories.keys c'.categories.keys).map _
    rw [← hrk]
    apply List.map_congr_left
    intro x hx
    rw [hpe x (mem_addedKeys.mp hx).1]
  have hchanged : (diff_assets c p).changed = (diff_assets c' p').changed := by
    show ((sharedKeys c.categories.keys p.categories.keys).filter
        (fun key => decide (jget (c.categories.entry key) "count" ≠ jget (p.categories.entry key) "count"
          ∨ jget (c.categories.entry key) "bytes" ≠ jget (p.categories.entry key) "bytes"))).map _ =
      ((sharedKeys c'.categories.keys p'.categories.keys).filter
        (fun key => decide (jget (c'.categories.entry key) "count" ≠ jget (p'.categories.entry key) "count"
          ∨ jget (c'.categories.entry key) "bytes" ≠ jget (p'.categories.entry key) "bytes"))).map _
    rw [← hsk]
    have hfil : (sharedKeys c.categories.keys p.categories.keys).filter
        (fun key => decide (jget (c.categories.entry key) "count" ≠ jget (p.categories.entry key) "count"
          ∨ jget (c.categories.entry key) "bytes" ≠ jget (p.categories.entry key) "bytes")) =
      (sharedKeys c.categories.keys p.categories.keys).filter
        (fun key => decide (jget (c'.categories.entry key) "count" ≠ jget (p'.categories.entry key) "count"
          ∨ jget (c'.categories.entry key) "bytes" ≠ jget (p'.categories.entry key) "bytes")) := by
      apply List.filter_congr
      intro x hx
      obtain ⟨hxc, hxp⟩ := mem_sharedKeys.mp hx
      rw [hce x hxc, hpe x hxp]
    rw [hfil]
    apply List.map_congr_left
    intro x hx
    obtain ⟨hxc, hxp⟩ := mem_sharedKeys.mp (List.mem_filter.mp hx).1
    rw [hce x hxc, hpe x hxp]
  refine assetsDiffFieldsEq hadded hremoved hchanged ?_
  show [("current", c.totals), ("previous", p.totals)] =
    [("current", c'.totals), ("previous", p'.totals)]
  rw [hct, hpt]

theorem diff_tokens_congr {c p c' p' : TokensDoc}
    (hck : List.Perm c.screens.keys c'.screens.keys)
    (hpk : List.Perm p.screens.keys p'.screens.keys)
    (hce : ∀ x ∈ c.screens.keys, c.screens.entry x = c'.screens.entry x)
    (hpe : ∀ x ∈ p.screens.keys, p.screens.entry x = p'.screens.entry x) :
    diff_tokens c p = diff_tokens c' p' := by
  have hcm : ∀ x, x ∈ c.screens.keys ↔ x ∈ c'.screens.keys := fun x => hck.mem_iff
  have hpm : ∀ x, x ∈ p.screens.keys ↔ x ∈ p'.screens.keys := fun x => hpk.mem_iff
  have hak := addedKeys_congr hck hpm
  have hrk := addedKeys_congr hpk hcm
  have hsk := sharedKeys_congr hck hpm
  have hchanged : (diff_tokens c p).changed = (diff_tokens c' p').changed := by
    show ((sharedKeys c.screens.keys p.screens.keys).filter
        (fun key => decide (jget (c.screens.entry key) "metrics" ≠ jget (p.screens.entry key) "metrics"
          ∨ jget (c.screens.entry key) "status" ≠ jget (p.screens.entry key) "status"))).map _ =
      ((sharedKeys c'.screens.keys p'.screens.keys).filter
        (fun key => decide (jget (c'.screens.entry key) "metrics" ≠ jget (p'.screens.entry key) "metrics"
          ∨ jget (c'.screens.entry key) "status" ≠ jget (p'.screens.entry key) "status"))).map _
    rw [← hsk]
    have hfil : (sharedKeys c.screens.keys p.screens.keys).filter
        (fun key => decide (jget (c.screens.entry key) "metrics" ≠ jget (p.screens.entry key) "metrics"
          ∨ jget (c.screens.entry key) "status" ≠ jget (p.screens.entry key) "status")) =
      (sharedKeys c.screens.keys p.screens.keys).filter
        (fun key => decide (jget (c'.screens.entry key) "metrics" ≠ jget (p'.screens.entry key) "metrics"
          ∨ jget (c'.screens.entry key) "status" ≠ jget (p'.screens.entry key) "status")) := by
      apply List.filter_congr
      intro x hx
      obtain ⟨hxc, hxp⟩ := mem_sharedKeys.mp hx
      rw [hce x hxc, hpe x hxp]
    rw [hfil]
    apply List.map_congr_left
    intro x hx
    obtain ⟨hxc, hxp⟩ := mem_sharedKeys.mp (List.mem_filter.mp hx).1
    rw [hce x hxc, hpe x hxp]
  refine tokensDiffFieldsEq ?_ ?_ hchanged ?_
  · show addedKeys c.screens.keys p.screens.keys = addedKeys c'.screens.keys p'.screens.keys
    exact hak
  · show addedKeys p.screens.keys c.screens.keys = addedKeys p'.screens.keys c'.screens.keys
    exact hrk
  · show [("current", JValue.num c.screens.keys.length), ("previous", JValue.num p.screens.keys.length)] =
      [("current", JValue.num c'.screens.keys.length), ("previous", JValue.num p'.screens.keys.length)]
    rw [hck.length_eq, hpk.length_eq]

/-- C10: the added, removed and changed lists of all three differencers are
sorted in strictly ascending key order, and the diff output is a
deterministic function of the documents' contents alone: replacing any of
the six documents by one whose key list is a permutation (a different map
iteration order) with the same entries (and totals) yields identical diff
results. -/
theorem C10_sorted_and_deterministic (nc np : NetworkDoc) (ac ap : AssetsDoc)
    (tc tp : TokensDoc) :
    ((diff_network nc np).added.map NetworkItem.endpoint).Sorted (· < ·)
    ∧ ((diff_network nc np).removed.map NetworkItem.endpoint).Sorted (· < ·)
    ∧ ((diff_network nc np).changed.map NetworkChange.endpoint).Sorted (· < ·)
    ∧ ((diff_assets ac ap).added.map AssetItem.category).Sorted (· < ·)
    ∧ ((diff_assets ac ap).removed.map AssetItem.category).Sorted (· < ·)
    ∧ ((diff_assets ac ap).changed.map AssetChange.category).Sorted (· < ·)
    ∧ (diff_tokens tc tp).added.Sorted (· < ·)
    ∧ (diff_tokens tc tp).removed.Sorted (· < ·)
    ∧ ((diff_tokens tc tp).changed.map TokenChange.screen).Sorted (· < ·)
    ∧ (∀ (nc' np' : NetworkDoc) (ac' ap' : AssetsDoc) (tc' tp' : TokensDoc),
        List.Perm nc.endpoints.keys nc'.endpoints.keys →
        List.Perm np.endpoints.keys np'.endpoints.keys →
        (∀ x ∈ nc.endpoints.keys, nc.endpoints.entry x = nc'.endpoints.entry x) →
        (∀ x ∈ np.endpoints.keys, np.endpoints.entry x = np'.endpoints.entry x) →
        List.Perm ac.categories.keys ac'.categories.keys →
        List.Perm ap.categories.keys ap'.categories.keys →
        (∀ x ∈ ac.categories.keys, ac.categories.entry x = ac'.categories.entry x) →
        (∀ x ∈ ap.categories.keys, ap.categories.entry x = ap'.categories.entry x) →
        ac.totals = ac'.totals → ap.totals = ap'.totals →
        List.Perm tc.screens.keys tc'.screens.keys →
        List.Perm tp.screens.keys tp'.screens.keys →
        (∀ x ∈ tc.screens.keys, tc.screens.entry x = tc'.screens.entry x) →
        (∀ x ∈ tp.screens.keys, tp.screens.entry x = tp'.screens.entry x) →
        diff_network nc np = diff_network nc' np'
          ∧ diff_assets ac ap = diff_assets ac' ap'
          ∧ diff_tokens tc tp = diff_tokens tc' tp') := by
  refine ⟨?_, ?_, ?_, ?_, ?_, ?_, ?_, ?_, ?_, ?_⟩
  · rw [network_added_keys]; exact addedKeys_sorted_lt _ nc.endpoints.nodup
  · rw [network_removed_keys]; exact addedKeys_sorted_lt _ np.endpoints.nodup
  · rw [network_changed_keys]
    exact List.Pairwise.filter _ (sharedKeys_sorted_lt _ nc.endpoints.nodup)
  · rw [assets_added_keys]; exact addedKeys_sorted_lt _ ac.categories.nodup
  · rw [assets_removed_keys]; exact addedKeys_sorted_lt _ ap.categories.nodup
  · rw [assets_changed_keys]
    exact List.Pairwise.filter _ (sharedKeys_sorted_lt _ ac.categories.nodup)
  · rw [tokens_added_keys]; exact addedKeys_sorted_lt _ tc.screens.nodup
  · rw [tokens_removed_keys]; exact addedKeys_sorted_lt _ tp.screens.nodup
  · rw [tokens_changed_keys]
    exact List.Pairwise.filter _ (sharedKeys_sorted_lt _ tc.screens.nodup)
  · intro nc' np' ac' ap' tc' tp' h1 h2 h3 h4 h5 h6 h7 h8 h9 h10 h11 h12 h13 h14
    exact ⟨diff_network_congr h1 h2 h3 h4, diff_assets_congr h5 h6 h7 h8 h9 h10,
      diff_tokens_congr h11 h12 h13 h14⟩

/-- Network document whose endpoints map has keys ["a", "b"] in that order. -/
def netDocAB : NetworkDoc := ⟨⟨["a", "b"], fun _ => jobj [], by decide⟩⟩

/-- The same endpoints map with its keys listed in the other order. -/
def netDocBA : NetworkDoc := ⟨⟨["b", "a"], fun _ => jobj [], by decide⟩⟩

theorem C10_sorted_and_deterministic_witness :
    diff_network netDocAB netDocAB = diff_network netDocBA netDocBA
    ∧ diff_assets emptyAssetsDoc emptyAssetsDoc = diff_assets emptyAssetsDoc emptyAssetsDoc
    ∧ diff_tokens emptyTokensDoc emptyTokensDoc = diff_tokens emptyTokensDoc emptyTokensDoc :=
  (C10_sorted_and_deterministic netDocAB netDocAB emptyAssetsDoc emptyAssetsDoc emptyTokensDoc
      emptyTokensDoc).2.2.2.2.2.2.2.2.2
    netDocBA netDocBA emptyAssetsDoc emptyAssetsDoc emptyTokensDoc emptyTokensDoc
    (by decide) (by decide) (fun x _ => rfl) (fun x _ => rfl)
    (by decide) (by decide) (fun x _ => rfl) (fun x _ => rfl)
    rfl rfl
    (by decide) (by decide) (fun x _ => rfl) (fun x _ => rfl)

theorem C7_tokens_changed_entry_witness :
    "home" ∈ tokHomeW1.screens.keys ∧ "home" ∈ tokHomeW2.screens.keys
    ∧ (∃ e ∈ (diff_tokens tokHomeW1 tokHomeW2).changed, e.screen = "home") :=
  ⟨by decide, by decide,
    ((C7_tokens_changed_entry tokHomeW1 tokHomeW2 "home" (by decide) (by decide)).1).mpr
      (by decide)⟩

theorem C3_diff_key_partition_witness :
    ("home" ∈ (diff_tokens tokHomeW1 emptyTokensDoc).added ↔
      "home" ∈ tokHomeW1.screens.keys ∧ "home" ∉ emptyTokensDoc.screens.keys)
    ∧ ¬("home" ∈ (diff_tokens tokHomeW1 emptyTokensDoc).added
        ∧ "home" ∈ (diff_tokens tokHomeW1 emptyTokensDoc).removed) :=
  ⟨((C3_diff_key_partition emptyNetworkDoc emptyNetworkDoc emptyAssetsDoc emptyAssetsDoc
      tokHomeW1 emptyTokensDoc "home").2.2).1,
   ((C3_diff_key_partition emptyNetworkDoc emptyNetworkDoc emptyAssetsDoc emptyAssetsDoc
      tokHomeW1 emptyTokensDoc "home").2.2).2.2.2.1⟩

end DiffSuite

